import Mathlib

/-!
Shallow embedding of the bragi/elasticsearch probe
(src/src/api/environment.rs, with src/src/error.rs and the gql context),
together with theorems settling the specification claims.

Network effects are modelled by an explicit `World` oracle giving the
outcome of each HTTP request and of URL parsing; `Utc::now()` is modelled
by a single `now` field (no claim constrains timestamps).  A Rust panic
(out-of-bounds indexing, `unwrap` on `None`) is modelled by `Option.none`
at the function that panics.
-/

namespace BragiProbe

/-- Model of a `chrono::NaiveDate` (year, month, day). -/
structure UtcDate where
  year : Nat
  month : Nat
  day : Nat
deriving DecidableEq

/-- Model of a `chrono::NaiveTime` (hour, minute, second). -/
structure UtcTime where
  hour : Nat
  minute : Nat
  second : Nat
deriving DecidableEq

/-- Model of a `chrono::DateTime<Utc>` as a plain calendar date and time. -/
structure UtcDateTime where
  date : UtcDate
  time : UtcTime
deriving DecidableEq

/-- Embeds `PrivateStatus` from src/src/api/environment.rs. -/
inductive PrivateStatus where
  | Private : PrivateStatus
  | Public : PrivateStatus
deriving DecidableEq

/-- Embeds `ServerStatus` from src/src/api/environment.rs. -/
inductive ServerStatus where
  | Available : ServerStatus
  | NotAvailable : ServerStatus
deriving DecidableEq

/-- Embeds `BragiStatus` from src/src/api/environment.rs. -/
inductive BragiStatus where
  | Available : BragiStatus
  | BragiNotAvailable : BragiStatus
  | ElasticsearchNotAvailable : BragiStatus
deriving DecidableEq

/-- Embeds `ElasticsearchIndexInfo` from src/src/api/environment.rs (the
spec's `IndexMetadata`): decoded metadata for one index. -/
structure ElasticsearchIndexInfo where
  label : String
  place_type : String
  coverage : String
  private_ : PrivateStatus
  created_at : UtcDateTime
  count : Int
  updated_at : UtcDateTime
deriving DecidableEq

/-- Embeds `ElasticsearchIndexInfoDetails` from src/src/api/environment.rs: the
decoded shape of one entry of the `_cat/indices` JSON listing.  The
serde-skipped fields (`prim`, `rep`, `docs.deleted`, `store.size`,
`pri.store.size`) never carry request data and are omitted. -/
structure ElasticsearchIndexInfoDetails where
  health : String
  status : String
  index : String
  count : String
deriving DecidableEq

/-- Embeds `ElasticsearchInfo` from src/src/api/environment.rs (the spec's
`BackendStatus`). -/
structure ElasticsearchInfo where
  label : String
  url : String
  name : String
  status : ServerStatus
  version : String
  indices : List ElasticsearchIndexInfo
  indexPrefix : String
  updated_at : UtcDateTime
deriving DecidableEq

/-- Embeds `BragiInfo` from src/src/api/environment.rs (the spec's
`ServiceStatus`). -/
structure BragiInfo where
  label : String
  url : String
  version : String
  status : BragiStatus
  updated_at : UtcDateTime
  elastic : Option ElasticsearchInfo
deriving DecidableEq

/-- Embeds `BragiStatusDetails` from src/src/api/environment.rs: decoded body of
`GET {url}/status`; the JSON field `es` is renamed `elasticsearch`. -/
structure BragiStatusDetails where
  version : String
  elasticsearch : String
  status : String
deriving DecidableEq

/-- Embeds `MultiEnvironmentsResponseBody` from src/src/api/environment.rs. -/
structure MultiEnvironmentsResponseBody where
  environments : List BragiInfo
  environments_count : Int
deriving DecidableEq

/-- The `Error` enum of src/src/error.rs, restricted to the variants the
probe pipeline can produce (`source` payloads carry no decision data and
are dropped). -/
inductive Error where
  | NotAccessible : String → Error
  | StatusNotAccessible : String → Error
  | StatusNotReadable : String → Error
  | ElasticsearchURLNotReadable : String → Error
  | MiscError : String → Error
deriving DecidableEq

/-- Outcome of one HTTP request as the code distinguishes it: transport
failure (`reqwest` error on the request itself), body-decode failure
(`.json()` error), or a successfully decoded value. -/
inductive FetchResult (α : Type) where
  | transportErr : FetchResult α
  | decodeErr : FetchResult α
  | ok : α → FetchResult α
deriving DecidableEq

/-- Equality of modelled `Result` values is decidable, so concrete runs
can be checked by evaluation. -/
instance {ε α : Type} [DecidableEq ε] [DecidableEq α] : DecidableEq (Except ε α) :=
  fun a b =>
    match a, b with
    | Except.error x, Except.error y =>
      if h : x = y then isTrue (by rw [h]) else isFalse (fun c => by injection c; exact h (by assumption))
    | Except.error _, Except.ok _ => isFalse (fun c => by injection c)
    | Except.ok _, Except.error _ => isFalse (fun c => by injection c)
    | Except.ok x, Except.ok y =>
      if h : x = y then isTrue (by rw [h]) else isFalse (fun c => by injection c; exact h (by assumption))

/-- Model of a parsed `url::Url` at the interface the code uses:
`scheme()`, `host_str()` (`none` for host-less URLs), `port()` (`some`
only for an explicit non-default port), and `path_segments()` (`none`
for cannot-be-a-base URLs). -/
structure UrlT where
  scheme : String
  host : Option String
  port : Option Nat
  pathSegments : Option (List String)
deriving DecidableEq

/-- The oracle for all external effects of one probing pass: outcome of
`reqwest::get` on a bare URL (`ping`, reachability only), of the decoded
`GET {url}/status` request, of `Url::parse`, and of the decoded
`GET {esUrl}/_cat/indices?format=json` request; `now` models
`Utc::now()`. -/
structure World where
  ping : String → Bool
  status : String → FetchResult BragiStatusDetails
  parseUrl : String → Option UrlT
  catIndices : String → FetchResult (List ElasticsearchIndexInfoDetails)
  now : UtcDateTime

/-- Embeds `is_public` from src/src/api/environment.rs: the
`skip_serializing_if` predicate on the `private` field. -/
def is_public (status : PrivateStatus) : Bool :=
  status = PrivateStatus.Public

/-- Embeds `BragiInfo::new` from src/src/api/environment.rs: the uniform
degraded record. -/
def BragiInfo.new (w : World) (label url : String) : BragiInfo :=
  { label := label
  , url := url
  , version := ""
  , status := BragiStatus.BragiNotAvailable
  , updated_at := w.now
  , elastic := none }

/-- One step of Rust `str::split(sep)` over the character list: split on
every separator occurrence, keeping empty pieces, with `"" → [""]`. -/
def splitCharAux (sep : Char) : List Char → List (List Char)
  | [] => [[]]
  | c :: rest =>
    match splitCharAux sep rest with
    | [] => if c = sep then [[], []] else [[c]]
    | p :: ps => if c = sep then [] :: p :: ps else (c :: p) :: ps

/-- Model of Rust `s.split(sep).collect::<Vec<&str>>()`. -/
def rustSplit (s : String) (sep : Char) : List String :=
  (splitCharAux sep s.data).map (fun cs => String.mk cs)

/-- Character-list prefix test underlying the `starts_with` model. -/
def charsPrefix : List Char → List Char → Bool
  | [], _ => true
  | _ :: _, [] => false
  | p :: ps, c :: cs => p == c && charsPrefix ps cs

/-- Model of Rust `s.starts_with(lit)`. -/
def startsWithLit (s lit : String) : Bool :=
  charsPrefix lit.data s.data

/-- Model of Rust `s.chars().skip(n).collect::<String>()`. -/
def skipChars (s : String) (n : Nat) : String :=
  String.mk (s.data.drop n)

/-- Digit string to number, used by the fixed-format parser models. -/
def digitsToNat (cs : List Char) : Nat :=
  cs.foldl (fun a c => a * 10 + (c.toNat - 48)) 0

/-- Gregorian leap year, as in chrono's calendar. -/
def isLeap (y : Nat) : Bool :=
  y % 4 = 0 && (y % 100 ≠ 0 || y % 400 = 0)

/-- Days in a month of the proleptic Gregorian calendar. -/
def daysInMonth (y m : Nat) : Nat :=
  if m = 2 then (if isLeap y then 29 else 28)
  else if m = 4 ∨ m = 6 ∨ m = 9 ∨ m = 11 then 30
  else 31

/-- Model of `NaiveDate::parse_from_str(s, "%Y%m%d")` (chrono) on its
digit-only inputs: eight digits, four-digit year, calendar-valid month
and day; anything else fails. -/
def parseDateYmd (s : String) : Option UtcDate :=
  let cs := s.data
  if cs.length = 8 ∧ cs.all Char.isDigit then
    let y := digitsToNat (cs.take 4)
    let m := digitsToNat ((cs.drop 4).take 2)
    let d := digitsToNat (cs.drop 6)
    if 1 ≤ m ∧ m ≤ 12 ∧ 1 ≤ d ∧ d ≤ daysInMonth y m then some ⟨y, m, d⟩
    else none
  else none

/-- Model of `NaiveTime::parse_from_str(s, "%H%M%S")` (chrono) on its
digit-only inputs: six digits, hour ≤ 23, minute ≤ 59, second ≤ 59. -/
def parseTimeHms (s : String) : Option UtcTime :=
  let cs := s.data
  if cs.length = 6 ∧ cs.all Char.isDigit then
    let h := digitsToNat (cs.take 2)
    let m := digitsToNat ((cs.drop 2).take 2)
    let sec := digitsToNat (cs.drop 4)
    if h ≤ 23 ∧ m ≤ 59 ∧ sec ≤ 59 then some ⟨h, m, sec⟩
    else none
  else none

/-- Model of Rust `str::parse::<i32>()`: optional sign, at least one
digit, all digits, result within the i32 range. -/
def parseI32 (s : String) : Option Int :=
  let neg := startsWithLit s "-"
  let core := if neg ∨ startsWithLit s "+" then s.data.drop 1 else s.data
  if core.length = 0 ∨ core.all Char.isDigit = false then none
  else
    let n : Int := if neg then -(digitsToNat core : Int) else (digitsToNat core : Int)
    if -2147483648 ≤ n ∧ n ≤ 2147483647 then some n else none

/-- The per-entry body of the `map` inside `foo`
(src/src/api/environment.rs lines 255-279): split the index label on
underscores and decode metadata from the tokens.  The source indexes
`zs[1]`, `zs[2]`, `zs[3]`, `zs[4]` without a bounds check, so a label
with fewer than five tokens panics: modelled by `none`. -/
def decodeIndexInfo (now : UtcDateTime) (i : ElasticsearchIndexInfoDetails) :
    Option ElasticsearchIndexInfo :=
  let zs := rustSplit i.index '_'
  if h : 5 ≤ zs.length then
    let z1 := zs.get ⟨1, by omega⟩
    let z2 := zs.get ⟨2, by omega⟩
    let z3 := zs.get ⟨3, by omega⟩
    let z4 := zs.get ⟨4, by omega⟩
    let pc : PrivateStatus × String :=
      if startsWithLit z2 "priv." then (PrivateStatus.Private, skipChars z2 5)
      else (PrivateStatus.Public, z2)
    some
      { label := i.index
      , place_type := z1
      , coverage := pc.2
      , private_ := pc.1
      , created_at :=
          { date := (parseDateYmd z3).getD ⟨1970, 1, 1⟩
          , time := (parseTimeHms z4).getD ⟨0, 1, 1⟩ }
      , count := (parseI32 i.count).getD 0
      , updated_at := now }
  else none

/-- Embeds `check_accessible` from src/src/api/environment.rs: `reqwest::get`
against the bare URL; any response is success, a transport error maps to
`Error::NotAccessible`. -/
def check_accessible (w : World) (env url : String) : Except Error (String × String) :=
  if w.ping url then Except.ok (env, url)
  else Except.error (Error.NotAccessible url)

/-- Embeds `check_bragi_status` from src/src/api/environment.rs: request
`{url}/status`, decode it, parse the reported elasticsearch URL, strip
its path to form the backend base URL, and take its first path segment
(default `"munin"`) as the index-name prefix.  The outer `Option` models
the two panics of the source (`host_str().unwrap()` on a host-less URL,
`path_segments().unwrap()` on a cannot-be-a-base URL). -/
def check_bragi_status (w : World) (env url : String) : Option (Except Error BragiInfo) :=
  match w.status (url ++ "/status") with
  | FetchResult.transportErr => some (Except.error (Error.StatusNotAccessible url))
  | FetchResult.decodeErr => some (Except.error (Error.StatusNotReadable url))
  | FetchResult.ok status =>
    match w.parseUrl status.elasticsearch with
    | none => some (Except.error (Error.ElasticsearchURLNotReadable status.elasticsearch))
    | some elastic =>
      match elastic.host with
      | none => none
      | some host =>
        let elastic_url :=
          match elastic.port with
          | none => elastic.scheme ++ "://" ++ host
          | some port => elastic.scheme ++ "://" ++ host ++ ":" ++ toString port
        match elastic.pathSegments with
        | none => none
        | some segs =>
          some (Except.ok
            { label := "bragi_" ++ env
            , url := url
            , version := status.version
            , status := BragiStatus.Available
            , updated_at := w.now
            , elastic := some
                { label := "elasticsearch_" ++ env
                , url := elastic_url
                , name := ""
                , status := ServerStatus.NotAvailable
                , version := ""
                , indices := []
                , indexPrefix := segs.headD "munin"
                , updated_at := w.now } })

/-- Embeds `foo` from src/src/api/environment.rs: request
`{esUrl}/_cat/indices?format=json`.  A transport error propagates as
`Err` (the `?` operator); a body-decode error is absorbed by `.ok()`
into `indices = None`, leaving the backend `NotAvailable` with no
indices; on success every entry is decoded and the backend becomes
`Available`.  The outer `Option` models a panic inside the per-entry
decoder. -/
def foo (w : World) (es_info : ElasticsearchInfo) : Option (Except Error ElasticsearchInfo) :=
  let indices_url := es_info.url ++ "/_cat/indices?format=json"
  match w.catIndices indices_url with
  | FetchResult.transportErr => some (Except.error (Error.NotAccessible indices_url))
  | FetchResult.decodeErr =>
    some (Except.ok
      { es_info with
          status := ServerStatus.NotAvailable
        , indices := []
        , updated_at := w.now })
  | FetchResult.ok is =>
    match is.mapM (decodeIndexInfo w.now) with
    | none => none
    | some infos =>
      some (Except.ok
        { es_info with
            status := ServerStatus.Available
          , indices := infos
          , updated_at := w.now })

/-- Embeds `update_elasticsearch_indices` from src/src/api/environment.rs: run
`foo` on the backend record; on any error (`elastic` missing, or `foo`
failing) `map_ok_or_else` falls back to `BragiInfo::new(label, url)` —
where the source binds BOTH `label` and `url` to `info.label` (line
166: `let url = info.label.clone();`). -/
def update_elasticsearch_indices (w : World) (info : BragiInfo) : Option (Except Error BragiInfo) :=
  let label := info.label
  let url := info.label
  match info.elastic with
  | none => some (Except.ok (BragiInfo.new w label url))
  | some es_info =>
    match foo w es_info with
    | none => none
    | some (Except.error _) => some (Except.ok (BragiInfo.new w label url))
    | some (Except.ok es_info2) => some (Except.ok { info with elastic := some es_info2 })

/-- Embeds `probe_environment` from src/src/api/environment.rs: the chain
`check_accessible` → `check_bragi_status` → `update_elasticsearch_indices`
with a final `or_else` that converts any error into the uniform degraded
record `BragiInfo::new(env, url)`.  The outer `Option` models a panic in
a stage. -/
def probe_environment (w : World) (env url : String) : Option BragiInfo :=
  match check_accessible w env url with
  | Except.error _ => some (BragiInfo.new w env url)
  | Except.ok (env2, url2) =>
    match check_bragi_status w env2 url2 with
    | none => none
    | some (Except.error _) => some (BragiInfo.new w env url)
    | some (Except.ok info) =>
      match update_elasticsearch_indices w info with
      | none => none
      | some (Except.error _) => some (BragiInfo.new w env url)
      | some (Except.ok info2) => some info2

/-- The `try_fold` of `list_environments`
(src/src/api/environment.rs lines 137-143): probe each `(env, url)` pair
in the order the registry iterator yields it, pushing each result onto
the accumulator.  `probe_environment` never returns `Err`, so only a
panic (`none`) can interrupt the fold. -/
def list_environments_fold (w : World) (acc : List BragiInfo) :
    List (String × String) → Option (List BragiInfo)
  | [] => some acc
  | (env, url) :: rest =>
    match probe_environment w env url with
    | none => none
    | some info => list_environments_fold w (acc ++ [info]) rest

/-- Embeds `list_environments` from src/src/api/environment.rs.  The registry
`context.envs` is a Rust `HashMap<String, String>`; `envs` here is the
sequence its iterator yields, which is an arbitrary permutation of the
caller's entries (a `HashMap` does not preserve insertion order). -/
def list_environments (w : World) (envs : List (String × String)) :
    Option MultiEnvironmentsResponseBody :=
  match list_environments_fold w [] envs with
  | none => none
  | some infos => some { environments := infos, environments_count := (infos.length : Int) }

/-- Field names emitted when serde serializes an
`ElasticsearchIndexInfo` (src/src/api/environment.rs lines 99-109): in
declaration order, with `private` skipped exactly when
`is_public(&self.private)` holds (`skip_serializing_if`). -/
def serializedIndexInfoFields (i : ElasticsearchIndexInfo) : List String :=
  ["label", "place_type", "coverage"]
    ++ (if is_public i.private_ then [] else ["private"])
    ++ ["created_at", "count", "updated_at"]

/-- Stage-1 or stage-2 failure, as the chain distinguishes them: the
reachability request fails, the status request fails, the status body
fails to decode, or the reported elasticsearch URL fails to parse. -/
def stage12_failed (w : World) (url : String) : Prop :=
  w.ping url = false
    ∨ w.status (url ++ "/status") = FetchResult.transportErr
    ∨ w.status (url ++ "/status") = FetchResult.decodeErr
    ∨ ∃ d, w.status (url ++ "/status") = FetchResult.ok d ∧ w.parseUrl d.elasticsearch = none

/-- The per-pair probes, sequenced in the order the registry iterator
yields the pairs: one result per pair, with a panic in any probe
aborting the whole aggregate (as the `try_fold` does). -/
def probeAll (w : World) : List (String × String) → Option (List BragiInfo)
  | [] => some []
  | p :: rest =>
    match probe_environment w p.1 p.2 with
    | none => none
    | some info =>
      match probeAll w rest with
      | none => none
      | some infos => some (info :: infos)

/-! Concrete worlds and records used by witnesses and counterexamples. -/

/-- A fixed observation instant standing for `Utc::now()`. -/
def now0 : UtcDateTime := ⟨⟨2026, 10, 12⟩, ⟨0, 0, 0⟩⟩

/-- An index-listing entry with the given label and document count. -/
def catEntry (lbl cnt : String) : ElasticsearchIndexInfoDetails :=
  { health := "green", status := "open", index := lbl, count := cnt }

/-- A world where every request fails at the transport layer. -/
def wFail : World :=
  { ping := fun _ => false
  , status := fun _ => FetchResult.transportErr
  , parseUrl := fun _ => none
  , catIndices := fun _ => FetchResult.transportErr
  , now := now0 }

/-- A world where all three stages succeed for the base URL
`http://good`: the service reports version 1.2.3 and backend
`http://es:9200/munin`, and the index listing has one well-formed
private entry. -/
def wGood : World :=
  { ping := fun u => u = "http://good"
  , status := fun u =>
      if u = "http://good/status" then
        FetchResult.ok ⟨"1.2.3", "http://es:9200/munin", "ok"⟩
      else FetchResult.transportErr
  , parseUrl := fun u =>
      if u = "http://es:9200/munin" then
        some ⟨"http", some "es", some 9200, some ["munin"]⟩
      else none
  , catIndices := fun u =>
      if u = "http://es:9200/_cat/indices?format=json" then
        FetchResult.ok [catEntry "munin_poi_priv.fr_20210101_120000" "123"]
      else FetchResult.transportErr
  , now := now0 }

/-- The index metadata `wGood`'s single listing entry decodes to. -/
def idxGood : ElasticsearchIndexInfo :=
  { label := "munin_poi_priv.fr_20210101_120000"
  , place_type := "poi"
  , coverage := "fr"
  , private_ := PrivateStatus.Private
  , created_at := ⟨⟨2021, 1, 1⟩, ⟨12, 0, 0⟩⟩
  , count := 123
  , updated_at := now0 }

/-- The backend record probing `("prod", "http://good")` in `wGood`
produces. -/
def esGood : ElasticsearchInfo :=
  { label := "elasticsearch_prod"
  , url := "http://es:9200"
  , name := ""
  , status := ServerStatus.Available
  , version := ""
  , indices := [idxGood]
  , indexPrefix := "munin"
  , updated_at := now0 }

/-- The full record probing `("prod", "http://good")` in `wGood`
produces. -/
def infoGood : BragiInfo :=
  { label := "bragi_prod"
  , url := "http://good"
  , version := "1.2.3"
  , status := BragiStatus.Available
  , updated_at := now0
  , elastic := some esGood }

/-- The backend record as stage 2 leaves it for
`("prod", "http://good")` in `wGood`-like worlds: provisionally
`NotAvailable` with no indices. -/
def esStage2 : ElasticsearchInfo :=
  { label := "elasticsearch_prod"
  , url := "http://es:9200"
  , name := ""
  , status := ServerStatus.NotAvailable
  , version := ""
  , indices := []
  , indexPrefix := "munin"
  , updated_at := now0 }

/-- The full record as stage 2 leaves it for `("prod", "http://good")`
in `wGood`-like worlds. -/
def infoStage2 : BragiInfo :=
  { label := "bragi_prod"
  , url := "http://good"
  , version := "1.2.3"
  , status := BragiStatus.Available
  , updated_at := now0
  , elastic := some esStage2 }

/-- Like `wGood` up to stage 2, but the index-listing request itself
fails at the transport layer. -/
def wCatTransportFail : World :=
  { wGood with catIndices := fun _ => FetchResult.transportErr }

/-- Like `wGood` up to stage 2, but the index-listing body fails to
decode as JSON. -/
def wCatDecodeFail : World :=
  { wGood with catIndices := fun _ => FetchResult.decodeErr }

/-- The index metadata the label `munin_poi_fr_bad_120000` (unparseable
date token, parseable time token) decodes to. -/
def idxBadDate : ElasticsearchIndexInfo :=
  { label := "munin_poi_fr_bad_120000"
  , place_type := "poi"
  , coverage := "fr"
  , private_ := PrivateStatus.Public
  , created_at := ⟨⟨1970, 1, 1⟩, ⟨12, 0, 0⟩⟩
  , count := 42
  , updated_at := now0 }

/-- Like `wGood` up to stage 2, but the index listing contains one
well-formed entry and one entry whose label has a single token. -/
def wBadLabel : World :=
  { wGood with catIndices := fun u =>
      if u = "http://es:9200/_cat/indices?format=json" then
        FetchResult.ok [catEntry "munin_poi_priv.fr_20210101_120000" "123", catEntry "foo" "1"]
      else FetchResult.transportErr }

/-- Like `wGood`, but the service's `/status` body reports an empty
version string. -/
def wEmptyVersion : World :=
  { wGood with status := fun u =>
      if u = "http://good/status" then
        FetchResult.ok ⟨"", "http://es:9200/munin", "ok"⟩
      else FetchResult.transportErr }

/-- A two-environment world: `http://good` succeeds through stage 2 and
its index listing fails to decode; `http://bad` is unreachable. -/
def wTwoEnvs : World :=
  { ping := fun u => u = "http://good"
  , status := fun u =>
      if u = "http://good/status" then FetchResult.ok ⟨"1", "http://es", "ok"⟩
      else FetchResult.transportErr
  , parseUrl := fun u =>
      if u = "http://es" then some ⟨"http", some "es", none, some [""]⟩
      else none
  , catIndices := fun _ => FetchResult.decodeErr
  , now := now0 }

/-! Helper lemmas characterizing the pipeline stages. -/

/-- On any stage-1 or stage-2 failure, the whole chain falls into the
`or_else` sink and yields the uniform degraded record. -/
lemma probe_eq_degraded_of_stage12_failed (w : World) (env url : String)
    (h : stage12_failed w url) :
    probe_environment w env url = some (BragiInfo.new w env url) := by
  rcases h with h | h | h | ⟨d, hd, hpu⟩
  · simp [probe_environment, check_accessible, h]
  · cases hping : w.ping url <;>
      simp [probe_environment, check_accessible, check_bragi_status, hping, h]
  · cases hping : w.ping url <;>
      simp [probe_environment, check_accessible, check_bragi_status, hping, h]
  · cases hping : w.ping url <;>
      simp [probe_environment, check_accessible, check_bragi_status, hping, hd, hpu]

/-- A stage-2 error can only come from the status request, the status
decode, or the backend-URL parse. -/
lemma check_bragi_status_error_shape (w : World) (env url : String) (e : Error)
    (h : check_bragi_status w env url = some (Except.error e)) :
    w.status (url ++ "/status") = FetchResult.transportErr
      ∨ w.status (url ++ "/status") = FetchResult.decodeErr
      ∨ ∃ d, w.status (url ++ "/status") = FetchResult.ok d
          ∧ w.parseUrl d.elasticsearch = none := by
  unfold check_bragi_status at h
  split at h
  · exact Or.inl (by assumption)
  · exact Or.inr (Or.inl (by assumption))
  · rename_i d hd
    split at h
    · exact Or.inr (Or.inr ⟨d, hd, by assumption⟩)
    · split at h
      · exact absurd h (by simp)
      · split at h <;> split at h <;> exact absurd h (by simp)

/-- Shape of a successful stage-2 result: the fields
`check_bragi_status` pins on success. -/
lemma check_bragi_status_ok_shape (w : World) (env url : String) (info : BragiInfo)
    (h : check_bragi_status w env url = some (Except.ok info)) :
    ∃ d e es, w.status (url ++ "/status") = FetchResult.ok d
      ∧ w.parseUrl d.elasticsearch = some e
      ∧ info.label = "bragi_" ++ env ∧ info.url = url ∧ info.version = d.version
      ∧ info.status = BragiStatus.Available ∧ info.elastic = some es
      ∧ es.label = "elasticsearch_" ++ env ∧ es.status = ServerStatus.NotAvailable
      ∧ es.indices = [] ∧ es.version = "" := by
  unfold check_bragi_status at h
  split at h
  · exact absurd h (by simp)
  · exact absurd h (by simp)
  · rename_i d hd
    split at h
    · exact absurd h (by simp)
    · rename_i e he
      split at h
      · exact absurd h (by simp)
      · split at h <;>
        · split at h
          · exact absurd h (by simp)
          · rename_i segs hsegs
            injection h with h
            injection h with h
            subst h
            exact ⟨d, e, _, hd, he, rfl, rfl, rfl, rfl, rfl, rfl, rfl, rfl, rfl⟩

/-- `foo` preserves the backend's identifying fields on success. -/
lemma foo_ok_shape (w : World) (es es2 : ElasticsearchInfo)
    (h : foo w es = some (Except.ok es2)) :
    es2.label = es.label ∧ es2.url = es.url ∧ es2.name = es.name
      ∧ es2.version = es.version
      ∧ ElasticsearchInfo.indexPrefix es2 = ElasticsearchInfo.indexPrefix es := by
  unfold foo at h
  simp only [] at h
  split at h
  · exact absurd h (by simp)
  · injection h with h
    injection h with h
    subst h
    simp
  · split at h
    · exact absurd h (by simp)
    · injection h with h
      injection h with h
      subst h
      simp

/-- `update_elasticsearch_indices` absorbs every error into the fallback
record: it never returns `Err`. -/
lemma update_elasticsearch_indices_ne_error (w : World) (info : BragiInfo) (e : Error) :
    update_elasticsearch_indices w info ≠ some (Except.error e) := by
  unfold update_elasticsearch_indices
  split
  · simp
  · split <;> simp

/-- Shape of a successful stage-3 result: either the fallback record
built from `info.label` twice, or `info` with only the backend record
replaced (its identifying fields preserved). -/
lemma update_elasticsearch_indices_ok_shape (w : World) (info r : BragiInfo)
    (h : update_elasticsearch_indices w info = some (Except.ok r)) :
    r = BragiInfo.new w info.label info.label
      ∨ (r.label = info.label ∧ r.url = info.url ∧ r.version = info.version
          ∧ r.status = info.status
          ∧ ∃ es es2, info.elastic = some es ∧ r.elastic = some es2
              ∧ es2.label = es.label ∧ es2.url = es.url
              ∧ ElasticsearchInfo.indexPrefix es2 = ElasticsearchInfo.indexPrefix es) := by
  unfold update_elasticsearch_indices at h
  split at h
  · left
    injection h with h
    injection h with h
    exact h.symm
  · rename_i es hes
    split at h
    · exact absurd h (by simp)
    · left
      injection h with h
      injection h with h
      exact h.symm
    · rename_i es2 hfoo
      right
      injection h with h
      injection h with h
      subst h
      obtain ⟨h1, h2, _, _, h5⟩ := foo_ok_shape w es es2 hfoo
      exact ⟨rfl, rfl, rfl, rfl, es, es2, hes, rfl, h1, h2, h5⟩

/-- Any record the probe returns comes either from the uniform
stage-1/2 failure sink or from a successful stage-2 record passed to
stage 3. -/
lemma probe_some_shape (w : World) (env url : String) (r : BragiInfo)
    (hp : probe_environment w env url = some r) :
    (stage12_failed w url ∧ r = BragiInfo.new w env url)
      ∨ ∃ info, w.ping url = true
          ∧ check_bragi_status w env url = some (Except.ok info)
          ∧ update_elasticsearch_indices w info = some (Except.ok r) := by
  unfold probe_environment at hp
  split at hp
  · rename_i e hca
    unfold check_accessible at hca
    split at hca
    · exact absurd hca (by simp)
    · rename_i hping
      injection hp with hp
      exact Or.inl ⟨Or.inl (by simpa using hping), hp.symm⟩
  · rename_i env2 url2 hca
    unfold check_accessible at hca
    split at hca
    · rename_i hping
      injection hca with hca
      injection hca with hca1 hca2
      subst hca1
      subst hca2
      split at hp
      · exact absurd hp (by simp)
      · rename_i e h2
        injection hp with hp
        refine Or.inl ⟨?_, hp.symm⟩
        rcases check_bragi_status_error_shape w env url e h2 with h | h | h
        · exact Or.inr (Or.inl h)
        · exact Or.inr (Or.inr (Or.inl h))
        · exact Or.inr (Or.inr (Or.inr h))
      · rename_i info h2
        split at hp
        · exact absurd hp (by simp)
        · rename_i e hu
          exact absurd hu (update_elasticsearch_indices_ne_error w info e)
        · rename_i r2 hu
          injection hp with hp
          exact Or.inr ⟨info, hping, h2, hp ▸ hu⟩
    · exact absurd hca (by simp)

/-- A successful character-list prefix test means the tail after the
prefix reassembles the whole list. -/
lemma charsPrefix_append_drop (ps : List Char) :
    ∀ cs, charsPrefix ps cs = true → ps ++ cs.drop ps.length = cs := by
  induction ps with
  | nil => intro cs _; simp
  | cons p ps ih =>
    intro cs h
    cases cs with
    | nil => simp [charsPrefix] at h
    | cons c cs =>
      unfold charsPrefix at h
      rw [Bool.and_eq_true] at h
      obtain ⟨h1, h2⟩ := h
      have hpc : p = c := by simpa using h1
      subst hpc
      simpa using ih cs h2

/-- If `s` starts with `pre`, then `pre` followed by `s` minus its first
`pre.length` characters is `s` again. -/
lemma append_skipChars_of_startsWith (s pre : String) (h : startsWithLit s pre = true) :
    pre ++ skipChars s pre.length = s := by
  unfold startsWithLit at h
  cases s with
  | mk sdata =>
    cases pre with
    | mk pdata =>
      exact congrArg String.mk (charsPrefix_append_drop pdata sdata h)

/-- Reading a list through `get?` agrees with `get`. -/
lemma list_get_of_get? {α : Type} (l : List α) (n : Nat) (z : α) (hlt : n < l.length)
    (h : l.get? n = some z) : l.get ⟨n, hlt⟩ = z := by
  rw [List.get?_eq_get hlt] at h
  injection h

/-- Full shape of a successful decode: every field of the produced
metadata in terms of the label's underscore tokens. -/
lemma decodeIndexInfo_some_shape (now : UtcDateTime) (i : ElasticsearchIndexInfoDetails)
    (info : ElasticsearchIndexInfo) (hi : decodeIndexInfo now i = some info) :
    ∃ hlen : 5 ≤ (rustSplit i.index '_').length,
      info.label = i.index
        ∧ info.place_type = (rustSplit i.index '_').get ⟨1, by omega⟩
        ∧ ((startsWithLit ((rustSplit i.index '_').get ⟨2, by omega⟩) "priv." = true
              ∧ info.private_ = PrivateStatus.Private
              ∧ info.coverage = skipChars ((rustSplit i.index '_').get ⟨2, by omega⟩) 5)
            ∨ (startsWithLit ((rustSplit i.index '_').get ⟨2, by omega⟩) "priv." = false
              ∧ info.private_ = PrivateStatus.Public
              ∧ info.coverage = (rustSplit i.index '_').get ⟨2, by omega⟩))
        ∧ info.created_at =
            ⟨(parseDateYmd ((rustSplit i.index '_').get ⟨3, by omega⟩)).getD ⟨1970, 1, 1⟩,
              (parseTimeHms ((rustSplit i.index '_').get ⟨4, by omega⟩)).getD ⟨0, 1, 1⟩⟩
        ∧ info.count = (parseI32 i.count).getD 0 := by
  unfold decodeIndexInfo at hi
  simp only [] at hi
  split at hi
  · rename_i hlen
    injection hi with hi
    subst hi
    refine ⟨hlen, rfl, rfl, ?_, rfl, rfl⟩
    by_cases hc : startsWithLit ((rustSplit i.index '_').get ⟨2, by omega⟩) "priv." = true
    · refine Or.inl ⟨hc, ?_, ?_⟩ <;>
      · rw [List.get_eq_getElem] at hc
        simp [hc]
    · rw [Bool.not_eq_true] at hc
      refine Or.inr ⟨hc, ?_, ?_⟩ <;>
      · rw [List.get_eq_getElem] at hc
        simp [hc]
  · exact absurd hi (by simp)

/-! Claim theorems. -/

/-- C1: `probe_environment` never propagates a stage-1 or stage-2
failure: whenever the reachability request fails, or the status request
fails, or its body fails to decode, or the reported backend URL fails to
parse, the probe returns the uniform degraded record with `label = env`,
`url = url`, `version = ""`, `status = BragiNotAvailable` and
`elastic = none`. -/
theorem probe_degrades_uniformly_on_stage12_failure (w : World) (env url : String)
    (h : stage12_failed w url) :
    probe_environment w env url =
      some { label := env, url := url, version := "", status := BragiStatus.BragiNotAvailable, updated_at := w.now, elastic := none } :=
  probe_eq_degraded_of_stage12_failed w env url h

/-- Witness for C1: in a world where every request fails, probing
`("prod", "http://down")` returns exactly the degraded record. -/
theorem probe_degrades_uniformly_on_stage12_failure_witness :
    stage12_failed wFail "http://down" ∧
      probe_environment wFail "prod" "http://down" =
        some { label := "prod", url := "http://down", version := "", status := BragiStatus.BragiNotAvailable, updated_at := now0, elastic := none } :=
  ⟨Or.inl rfl, probe_degrades_uniformly_on_stage12_failure wFail "prod" "http://down" (Or.inl rfl)⟩

/-- C2 (code bug): after stage 2 succeeded (first conjunct: the status
check returned an `Available` record carrying version `"1.2.3"`), a
transport failure of the stage-3 index-listing request does NOT degrade
only the backend sub-record: the probe returns the fully degraded record
(`version = ""`, `status = BragiNotAvailable`, `elastic = none`) whose
`url` field is even set to the stage-2 label.  Only the body-decode
failure (last conjunct, world `wCatDecodeFail`) degrades the backend
sub-record alone as the claim states. -/
theorem stage3_transport_failure_degrades_entire_record :
    check_bragi_status wCatTransportFail "prod" "http://good" = some (Except.ok infoStage2)
      ∧ infoStage2.status = BragiStatus.Available ∧ infoStage2.version = "1.2.3"
      ∧ probe_environment wCatTransportFail "prod" "http://good" =
          some { label := "bragi_prod", url := "bragi_prod", version := "", status := BragiStatus.BragiNotAvailable, updated_at := now0, elastic := none }
      ∧ probe_environment wCatDecodeFail "prod" "http://good" = some infoStage2 :=
  ⟨by decide, rfl, rfl, by decide, by decide⟩

/-- C3 (code bug): an index entry whose label has fewer than five
underscore-delimited tokens is NOT degraded per entry: the decoder
indexes the token list out of bounds (a panic, modelled `none`), and
that panic aborts the whole enumeration and probe — `wBadLabel`'s
listing also contains a perfectly well-formed entry, yet the probe
returns no record at all. -/
theorem malformed_label_aborts_whole_probe :
    (rustSplit "foo" '_').length = 1
      ∧ decodeIndexInfo now0 (catEntry "foo" "1") = none
      ∧ probe_environment wBadLabel "prod" "http://good" = none :=
  ⟨by decide, by decide, by decide⟩

/-- C8 (amended): `status = Available` implies the `version` field
equals the version string reported by the service's `/status` body; in
particular it is non-empty whenever the service reports a non-empty
version. -/
theorem available_implies_reported_version (w : World) (env url : String) (r : BragiInfo)
    (hp : probe_environment w env url = some r)
    (ha : r.status = BragiStatus.Available) :
    ∃ d, w.status (url ++ "/status") = FetchResult.ok d
      ∧ r.version = d.version
      ∧ (d.version ≠ "" → r.version ≠ "") := by
  rcases probe_some_shape w env url r hp with ⟨_, rfl⟩ | ⟨info, _, h2, hu⟩
  · exact absurd ha (by simp [BragiInfo.new])
  · rcases update_elasticsearch_indices_ok_shape w info r hu with rfl | ⟨_, _, hver, _, _⟩
    · exact absurd ha (by simp [BragiInfo.new])
    · obtain ⟨d, _, _, hd, _, _, _, hver2, _⟩ := check_bragi_status_ok_shape w env url info h2
      refine ⟨d, hd, ?_, ?_⟩
      · rw [hver, hver2]
      · intro hne
        rw [hver, hver2]
        exact hne

/-- Witness for C8's amended theorem: in `wGood` the probe returns the
`Available` record `infoGood`, whose version equals the service-reported
body's version, hence is non-empty. -/
theorem available_implies_reported_version_witness :
    ∃ d, wGood.status ("http://good" ++ "/status") = FetchResult.ok d
      ∧ BragiInfo.version infoGood = d.version
      ∧ (d.version ≠ "" → BragiInfo.version infoGood ≠ "") :=
  available_implies_reported_version wGood "prod" "http://good" infoGood (by decide) rfl

/-- Counterexample for C8 as stated: in `wEmptyVersion` the service's
`/status` body reports an empty version string, and the probe returns a
record with `status = Available` and `version = ""`. -/
theorem available_with_empty_version_counterexample :
    (probe_environment wEmptyVersion "prod" "http://good").map (fun r => (r.status, r.version)) =
      some (BragiStatus.Available, "") := by decide

/-- C10: the label of a probe result is not the input name verbatim on
success — whenever stages 1 and 2 succeed, the returned record's label
is `"bragi_" ++ env` and any backend record it carries is labelled
`"elasticsearch_" ++ env`, whereas on a stage-1/2 failure the label is
`env` with no prefix added; and `"bragi_" ++ env` never equals `env`. -/
theorem probe_label_success_vs_failure (w : World) (env url : String) (r : BragiInfo)
    (hp : probe_environment w env url = some r) :
    ((w.ping url = true ∧ ∃ info, check_bragi_status w env url = some (Except.ok info)) →
        r.label = "bragi_" ++ env
          ∧ ∀ es, r.elastic = some es → es.label = "elasticsearch_" ++ env)
      ∧ (stage12_failed w url → r.label = env)
      ∧ "bragi_" ++ env ≠ env := by
  refine ⟨?_, ?_, ?_⟩
  · rintro ⟨hping, info2, h22⟩
    rcases probe_some_shape w env url r hp with ⟨hfail, rfl⟩ | ⟨info, _, h2, hu⟩
    · obtain ⟨d, e, _, hd, hparse, _⟩ := check_bragi_status_ok_shape w env url info2 h22
      rcases hfail with h | h | h | ⟨d2, hd2, hp2⟩
      · rw [hping] at h
        exact absurd h (by simp)
      · rw [hd] at h
        exact absurd h (by simp)
      · rw [hd] at h
        exact absurd h (by simp)
      · rw [hd] at hd2
        injection hd2 with hd2
        subst hd2
        rw [hparse] at hp2
        exact absurd hp2 (by simp)
    · have hinfo : info2 = info := by
        rw [h22] at h2
        simpa using h2
      subst hinfo
      obtain ⟨d, e, es, hd, hparse, hlabel, _, _, _, helastic, heslabel, _⟩ :=
        check_bragi_status_ok_shape w env url info2 h22
      rcases update_elasticsearch_indices_ok_shape w info2 r hu with rfl | hshape
      · refine ⟨by simp [BragiInfo.new, hlabel], fun es2 hes2 => ?_⟩
        exact absurd hes2 (by simp [BragiInfo.new])
      · obtain ⟨hrl, _, _, _, es1, es2, hes1, hes2, heq, _⟩ := hshape
        refine ⟨by rw [hrl, hlabel], fun es3 hes3 => ?_⟩
        rw [hes2] at hes3
        injection hes3 with hes3
        subst hes3
        rw [hes1] at helastic
        injection helastic with helastic
        rw [heq, helastic, heslabel]
  · intro hfail
    have := probe_eq_degraded_of_stage12_failed w env url hfail
    rw [hp] at this
    injection this with this
    rw [this]
    rfl
  · intro hcontra
    have hlen := congrArg String.length hcontra
    rw [String.length_append] at hlen
    have h6 : ("bragi_" : String).length = 6 := by decide
    omega

/-- Witness for C10: through the theorem, the failure-path label of
`("prod", "http://down")` in the all-failing world is the bare `"prod"`,
and the success-path label `"bragi_" ++ "prod"` differs from it. -/
theorem probe_label_success_vs_failure_witness :
    BragiInfo.label (BragiInfo.new wFail "prod" "http://down") = "prod"
      ∧ "bragi_" ++ "prod" ≠ "prod" := by
  have h := probe_label_success_vs_failure wFail "prod" "http://down"
    (BragiInfo.new wFail "prod" "http://down") (by decide)
  exact ⟨h.2.1 (Or.inl rfl), h.2.2⟩

/-- C4: on stage-2 success with a parsed backend URL, the recorded
backend base URL is `scheme://host`, with `:port` appended exactly when
the parsed URL carries an explicit port, and the recorded index-name
prefix is the URL's first path segment, or the literal `"munin"` when
the URL has no path segment. -/
theorem backend_base_url_and_index_name (w : World) (env url : String)
    (d : BragiStatusDetails) (e : UrlT) (host : String) (segs : List String)
    (hst : w.status (url ++ "/status") = FetchResult.ok d)
    (hparse : w.parseUrl d.elasticsearch = some e)
    (hhost : e.host = some host)
    (hsegs : e.pathSegments = some segs) :
    ∃ info es, check_bragi_status w env url = some (Except.ok info)
      ∧ info.elastic = some es
      ∧ (e.port = none → es.url = e.scheme ++ "://" ++ host)
      ∧ (∀ p, e.port = some p → es.url = e.scheme ++ "://" ++ host ++ ":" ++ toString p)
      ∧ (segs = [] → ElasticsearchInfo.indexPrefix es = "munin")
      ∧ (∀ s rest, segs = s :: rest → ElasticsearchInfo.indexPrefix es = s) := by
  have hcbs : check_bragi_status w env url = some (Except.ok
      { label := "bragi_" ++ env
      , url := url
      , version := d.version
      , status := BragiStatus.Available
      , updated_at := w.now
      , elastic := some
          { label := "elasticsearch_" ++ env
          , url := match e.port with
              | none => e.scheme ++ "://" ++ host
              | some port => e.scheme ++ "://" ++ host ++ ":" ++ toString port
          , name := ""
          , status := ServerStatus.NotAvailable
          , version := ""
          , indices := []
          , indexPrefix := segs.headD "munin"
          , updated_at := w.now } }) := by
    unfold check_bragi_status
    rw [hst]
    simp only [hparse, hhost, hsegs]
  refine ⟨_, _, hcbs, rfl, ?_, ?_, ?_, ?_⟩
  · intro hport
    simp only [hport]
  · intro p hport
    simp only [hport]
  · intro hnil
    simp only [hnil, List.headD]
  · intro s rest hcons
    simp only [hcons, List.headD]

/-- Witness for C4: in `wGood` the backend URL `http://es:9200/munin`
parses with explicit port 9200 and first path segment `munin`, and the
recorded base URL and index-name prefix are `http://es:9200` and
`munin`. -/
theorem backend_base_url_and_index_name_witness :
    ∃ info es, check_bragi_status wGood "prod" "http://good" = some (Except.ok info)
      ∧ info.elastic = some es ∧ es.url = "http://es:9200"
      ∧ ElasticsearchInfo.indexPrefix es = "munin" := by
  obtain ⟨info, es, h1, h2, _, h4, _, h6⟩ :=
    backend_base_url_and_index_name wGood "prod" "http://good"
      ⟨"1.2.3", "http://es:9200/munin", "ok"⟩ ⟨"http", some "es", some 9200, some ["munin"]⟩
      "es" ["munin"] (by decide) (by decide) rfl rfl
  refine ⟨info, es, h1, h2, ?_, ?_⟩
  · rw [h4 9200 rfl]
    decide
  · rw [h6 "munin" [] rfl]

/-- C5: the two `createdAt` sub-components default independently — an
unparseable date token yields the default date 1970-01-01 while a
parseable time token is kept, and an unparseable time token yields the
default time 00:01:01 while a parseable date is kept. -/
theorem created_at_subcomponents_default_independently
    (now : UtcDateTime) (i : ElasticsearchIndexInfoDetails) (info : ElasticsearchIndexInfo)
    (z3 z4 : String) (t : UtcTime) (d : UtcDate)
    (h3 : (rustSplit i.index '_').get? 3 = some z3)
    (h4 : (rustSplit i.index '_').get? 4 = some z4)
    (hi : decodeIndexInfo now i = some info) :
    (parseDateYmd z3 = none → parseTimeHms z4 = some t →
        info.created_at = ⟨⟨1970, 1, 1⟩, t⟩)
      ∧ (parseDateYmd z3 = some d → parseTimeHms z4 = none →
        info.created_at = ⟨d, ⟨0, 1, 1⟩⟩) := by
  obtain ⟨hlen, _, _, _, hca, _⟩ := decodeIndexInfo_some_shape now i info hi
  have hz3 := list_get_of_get? _ 3 z3 (by omega) h3
  have hz4 := list_get_of_get? _ 4 z4 (by omega) h4
  rw [hz3, hz4] at hca
  constructor
  · intro hd ht
    rw [hca, hd, ht]
    rfl
  · intro hd ht
    rw [hca, hd, ht]
    rfl

/-- Witness for C5: `munin_poi_fr_bad_120000` decodes with the default
date 1970-01-01 and the parsed time 12:00:00. -/
theorem created_at_subcomponents_default_independently_witness :
    decodeIndexInfo now0 (catEntry "munin_poi_fr_bad_120000" "42") = some idxBadDate
      ∧ ElasticsearchIndexInfo.created_at idxBadDate = ⟨⟨1970, 1, 1⟩, ⟨12, 0, 0⟩⟩ := by
  have hdec : decodeIndexInfo now0 (catEntry "munin_poi_fr_bad_120000" "42") = some idxBadDate := by
    decide
  refine ⟨hdec, ?_⟩
  exact (created_at_subcomponents_default_independently now0 _ idxBadDate "bad" "120000"
    ⟨12, 0, 0⟩ ⟨1970, 1, 1⟩ (by decide) (by decide) hdec).1 (by decide) (by decide)

/-- C6: if the third underscore token starts with the literal marker
`priv.`, the decoded metadata is `Private` and its coverage is the token
with the 5-character marker stripped (prepending the marker restores the
token); otherwise it is `Public` with the token taken verbatim. -/
theorem coverage_token_privacy_marker
    (now : UtcDateTime) (i : ElasticsearchIndexInfoDetails) (info : ElasticsearchIndexInfo)
    (z2 : String)
    (h2 : (rustSplit i.index '_').get? 2 = some z2)
    (hi : decodeIndexInfo now i = some info) :
    (startsWithLit z2 "priv." = true →
        info.private_ = PrivateStatus.Private ∧ "priv." ++ info.coverage = z2)
      ∧ (startsWithLit z2 "priv." = false →
        info.private_ = PrivateStatus.Public ∧ info.coverage = z2) := by
  obtain ⟨hlen, _, _, hcov, _, _⟩ := decodeIndexInfo_some_shape now i info hi
  have hz2 := list_get_of_get? _ 2 z2 (by omega) h2
  rw [hz2] at hcov
  constructor
  · intro hpriv
    rcases hcov with ⟨_, hp, hc⟩ | ⟨hfalse, _, _⟩
    · refine ⟨hp, ?_⟩
      rw [hc]
      exact append_skipChars_of_startsWith z2 "priv." hpriv
    · rw [hpriv] at hfalse
      exact absurd hfalse (by simp)
  · intro hpriv
    rcases hcov with ⟨htrue, _, _⟩ | ⟨_, hp, hc⟩
    · rw [hpriv] at htrue
      exact absurd htrue (by simp)
    · exact ⟨hp, hc⟩

/-- Witness for C6: `munin_poi_priv.fr_20210101_120000` decodes to
service type `poi`, coverage `fr` (so `priv.` prepended restores the
token `priv.fr`), privacy tier `Private`, and creation timestamp
2021-01-01T12:00:00Z. -/
theorem coverage_token_privacy_marker_witness :
    decodeIndexInfo now0 (catEntry "munin_poi_priv.fr_20210101_120000" "123") = some idxGood
      ∧ ElasticsearchIndexInfo.place_type idxGood = "poi"
      ∧ ElasticsearchIndexInfo.private_ idxGood = PrivateStatus.Private
      ∧ "priv." ++ ElasticsearchIndexInfo.coverage idxGood = "priv.fr"
      ∧ ElasticsearchIndexInfo.created_at idxGood = ⟨⟨2021, 1, 1⟩, ⟨12, 0, 0⟩⟩ := by
  have hdec : decodeIndexInfo now0 (catEntry "munin_poi_priv.fr_20210101_120000" "123") =
      some idxGood := by decide
  have h := (coverage_token_privacy_marker now0 _ idxGood "priv.fr" (by decide) hdec).1 (by decide)
  exact ⟨hdec, by decide, h.1, h.2, by decide⟩

/-- C9: the serialized field set of an `ElasticsearchIndexInfo` contains
the `private` field (the spec's `privacyTier`) exactly when its value is
`Private`; for a `Public` record the field is omitted entirely. -/
theorem private_field_serialized_iff_private (i : ElasticsearchIndexInfo) :
    "private" ∈ serializedIndexInfoFields i ↔ i.private_ = PrivateStatus.Private := by
  cases h : i.private_ <;>
  · simp only [serializedIndexInfoFields, is_public, h]
    decide

/-- The `try_fold` of `list_environments` probes the pairs one by one in
list order, appending each result. -/
lemma list_environments_fold_eq_probeAll (w : World) :
    ∀ (envs : List (String × String)) (acc : List BragiInfo),
      list_environments_fold w acc envs = (probeAll w envs).map (fun l => acc ++ l) := by
  intro envs
  induction envs with
  | nil =>
    intro acc
    simp [list_environments_fold, probeAll]
  | cons p rest ih =>
    intro acc
    obtain ⟨env, url⟩ := p
    unfold list_environments_fold probeAll
    cases hp : probe_environment w env url with
    | none => rfl
    | some info =>
      dsimp only
      rw [ih (acc ++ [info])]
      cases hm : probeAll w rest with
      | none => rfl
      | some l => simp

/-- C7 (amended): the aggregate operation returns one record per
`(name, url)` pair, collected sequentially in the order the registry
iterator yields the pairs — which, the registry being a hash map, is an
arbitrary permutation of the caller's entries rather than their
insertion order. -/
theorem list_environments_follows_iteration_order (w : World) (envs : List (String × String)) :
    list_environments w envs =
      (probeAll w envs).map
        (fun l => { environments := l, environments_count := (l.length : Int) }) := by
  unfold list_environments
  rw [list_environments_fold_eq_probeAll w envs []]
  cases hm : probeAll w envs with
  | none => rfl
  | some l => simp

/-- Counterexample for C7 as stated: the two iteration orders of the
registry `{prod ↦ http://good, staging ↦ http://bad}` are permutations
of each other, yet they produce the aggregate lists in different orders
— the output order follows the iteration order, so it is not determined
by the caller-supplied registry. -/
theorem list_environments_insertion_order_counterexample :
    List.Perm [("staging", "http://bad"), ("prod", "http://good")]
        [("prod", "http://good"), ("staging", "http://bad")]
      ∧ (list_environments wTwoEnvs [("staging", "http://bad"), ("prod", "http://good")]).map
          (fun r => r.environments.map (fun b => b.label)) = some ["staging", "bragi_prod"]
      ∧ (list_environments wTwoEnvs [("prod", "http://good"), ("staging", "http://bad")]).map
          (fun r => r.environments.map (fun b => b.label)) = some ["bragi_prod", "staging"]
      ∧ (["staging", "bragi_prod"] : List String) ≠ ["bragi_prod", "staging"] :=
  ⟨List.Perm.swap ("prod", "http://good") ("staging", "http://bad") [], by decide, by decide,
    by decide⟩

end BragiProbe
